import Mathlib

/-!
# Credential propagation in the Supabase client facade (`client.go`)

A shallow embedding of `client.go`: the facade `Client`, its constructor
`NewClient`, the propagation routine `UpdateAuthSession`, the sign-in and
refresh wrappers, the token override `WithToken`, and the refresh loop started
by `EnableTokenAutoRefresh`.

Conventions of the embedding.

* A Go `map[string]string` is an `Option HeaderMap`: `none` is the nil map,
  `some m` a map with pairwise distinct keys.  Reading a nil map finds nothing,
  writing it is a run-time panic.
* A Go pointer or interface field is an `Option`: `none` is nil.
* A run-time panic is the `Except.error` branch of `Except GoPanic`; a Go
  `(T, error)` result is a pair whose second component is `Option GoError`.
* `int`, `int64` and `time.Duration` are integers wrapped to 64 bits by `wrap64`;
  a `time.Time` is a number of nanoseconds.
* What the facade does to the outside world (calls of the Auth handle, calls of
  `UpdateAuthSession`, `time.Sleep`, `log.Printf`) is recorded as a list of
  `Event`s.
-/

namespace Supabase

/-! ## Constants -/

def REST_URL : String := "/rest/v1"
def STORAGE_URL : String := "/storage/v1"
def AUTH_URL : String := "/auth/v1"
def FUNCTIONS_URL : String := "/functions/v1"

/-! ## Go values -/

/-- A non-nil `map[string]string`: finitely many entries with distinct keys. -/
abbrev HeaderMap := AList (fun _ : String => String)

/-- A Go `error` value, identified with its message. -/
abbrev GoError := String

/-- The run-time panics the facade can raise. -/
inductive GoPanic where
  | assignNilMap
  | nilDereference
  | negativeShift
  deriving DecidableEq, Repr

/-- Reading `m[k]` with the comma-ok form: a nil map holds no entry. -/
def mapGet (m : Option HeaderMap) (k : String) : Option String :=
  match m with
  | none => none
  | some h => h.lookup k

/-- The statement `m[k] = v`: a panic on the nil map. -/
def mapSet (m : Option HeaderMap) (k v : String) : Except GoPanic (Option HeaderMap) :=
  match m with
  | none => .error .assignNilMap
  | some h => .ok (some (h.insert k v))

/-- The entries a `range` loop over `m` visits: none for the nil map. -/
def mapEntries (m : Option HeaderMap) : List (String × String) :=
  match m with
  | none => []
  | some h => h.entries.map (fun e => (e.1, e.2))

/-- Wrap in two-complement form of an integer to 64 bits. -/
def wrap64 (x : Int) : Int := (x + 2 ^ 63) % 2 ^ 64 - 2 ^ 63

/-! ## Collaborator handles -/

/-- Modelled from the spec: `types.Session` of auth-go, reduced to the three
fields the data model lists (access token, refresh token, expiry in seconds);
`ExpiresIn` is a Go `int`. -/
structure Session where
  AccessToken : String
  RefreshToken : String
  ExpiresIn : Int
  deriving DecidableEq, Repr

/-- The zero value `types.Session{}`. -/
def Session.zero : Session := ⟨"", "", 0⟩

/-- Modelled from the spec: the data-API handle of postgrest-go, "constructed
from (baseURL + /rest/v1, schema, headers); supports setAuthToken(token)".  The
handle records its construction arguments and the token last set on it. -/
structure RestClient where
  url : String
  schema : String
  headers : Option HeaderMap
  token : Option String
  deriving DecidableEq

/-- Modelled from the spec: the storage handle of storage-go, "constructed fresh
from (baseURL + /storage/v1, token, headers), no in-place mutation". -/
structure StorageClient where
  url : String
  token : String
  headers : Option HeaderMap
  deriving DecidableEq

/-- Modelled from the spec: the functions handle of functions-go, "constructed
fresh from (baseURL + /functions/v1, token, headers), no in-place mutation". -/
structure FunctionsClient where
  url : String
  token : String
  headers : Option HeaderMap
  deriving DecidableEq

/-- Modelled from the spec: the Auth capability of auth-go, "constructed from
(baseURL, apiKey), reconfigurable with a custom auth base URL; withToken(token)
returns a new capability instance bound to that token". -/
structure AuthClient where
  url : String
  apiKey : String
  authURL : Option String
  token : Option String
  deriving DecidableEq

namespace postgrest

/-- Modelled from the spec: `postgrest.NewClient(rawURL, schema, headers)`. -/
def NewClient (rawURL schema : String) (headers : Option HeaderMap) : RestClient :=
  { url := rawURL, schema := schema, headers := headers, token := none }

/-- Modelled from the spec: `(*postgrest.Client).SetAuthToken(token)`. -/
def SetAuthToken (r : RestClient) (token : String) : RestClient :=
  { r with token := some token }

end postgrest

namespace storage_go

/-- Modelled from the spec: `storage_go.NewClient(rawUrl, token, headers)`. -/
def NewClient (rawUrl token : String) (headers : Option HeaderMap) : StorageClient :=
  { url := rawUrl, token := token, headers := headers }

end storage_go

namespace functions

/-- Modelled from the spec: `functions.NewClient(rawUrl, token, headers)`. -/
def NewClient (rawUrl token : String) (headers : Option HeaderMap) : FunctionsClient :=
  { url := rawUrl, token := token, headers := headers }

end functions

namespace auth

/-- Modelled from the spec: `auth.New(projectReference, apiKey)`. -/
def New (url key : String) : AuthClient :=
  { url := url, apiKey := key, authURL := none, token := none }

/-- Modelled from the spec: `auth.Client.WithCustomAuthURL(url)`. -/
def WithCustomAuthURL (a : AuthClient) (url : String) : AuthClient :=
  { a with authURL := some url }

/-- Modelled from the spec: `auth.Client.WithToken(token)`, a new instance
bound to the token. -/
def WithToken (a : AuthClient) (token : String) : AuthClient :=
  { a with token := some token }

end auth

/-! ## The facade -/

structure clientOptions where
  url : String
  headers : Option HeaderMap
  schema : String
  deriving DecidableEq

structure Client where
  rest : Option RestClient
  Storage : Option StorageClient
  Auth : Option AuthClient
  Functions : Option FunctionsClient
  options : clientOptions
  deriving DecidableEq

structure ClientOptions where
  Headers : Option HeaderMap
  Schema : String
  deriving DecidableEq

/-- The zero value `Client{}`: every handle nil, the header map nil. -/
def Client.zero : Client :=
  { rest := none, Storage := none, Auth := none, Functions := none,
    options := { url := "", headers := none, schema := "" } }

/-- The header map literal of `NewClient` (lines 53-56). -/
def defaultHeaders (key : String) : HeaderMap :=
  ((∅ : HeaderMap).insert "Authorization" ("Bearer " ++ key)).insert "apikey" key

/-- The loop `for k, v := range src { dst[k] = v }` on a non-nil `dst`. -/
def mergeHeaders (dst : HeaderMap) (src : Option HeaderMap) : HeaderMap :=
  (mapEntries src).foldl (fun acc kv => acc.insert kv.1 kv.2) dst

/-- The function `NewClient` (lines 47-81). -/
def NewClient (url key : String) (options : Option ClientOptions) :
    Option Client × Option GoError :=
  if url = "" ∨ key = "" then
    (none, some "url and key are required")
  else
    let headers := defaultHeaders key
    let headers :=
      match options with
      | some o =>
        match o.Headers with
        | some H => mergeHeaders headers (some H)
        | none => headers
      | none => headers
    let schema :=
      match options with
      | some o => if o.Schema ≠ "" then o.Schema else "public"
      | none => "public"
    let client : Client :=
      { rest := some (postgrest.NewClient (url ++ REST_URL) schema (some headers))
        Storage := some (storage_go.NewClient (url ++ STORAGE_URL) key (some headers))
        Auth := some (auth.WithCustomAuthURL (auth.New url key) (url ++ AUTH_URL))
        Functions := some (functions.NewClient (url ++ FUNCTIONS_URL) key (some headers))
        options := { url := url, headers := some headers, schema := schema } }
    (some client, none)

/-! ## Credential propagation -/

/-- Line 158: `c.Auth = c.Auth.WithToken(session.AccessToken)`. -/
def UpdateAuthSession.setAuth (c : Client) (session : Session) : Except GoPanic Client :=
  match c.Auth with
  | none => .error .nilDereference
  | some a => .ok { c with Auth := some (auth.WithToken a session.AccessToken) }

/-- Line 159: `c.rest.SetAuthToken(session.AccessToken)`. -/
def UpdateAuthSession.setRest (c : Client) (session : Session) : Except GoPanic Client :=
  match c.rest with
  | none => .error .nilDereference
  | some r => .ok { c with rest := some (postgrest.SetAuthToken r session.AccessToken) }

/-- Line 160: `c.options.headers["Authorization"] = "Bearer " + session.AccessToken`. -/
def UpdateAuthSession.setHeader (c : Client) (session : Session) : Except GoPanic Client :=
  match mapSet c.options.headers "Authorization" ("Bearer " ++ session.AccessToken) with
  | .error p => .error p
  | .ok h => .ok { c with options := { c.options with headers := h } }

/-- Line 161: `c.Storage = storage_go.NewClient(...)`. -/
def UpdateAuthSession.setStorage (c : Client) (session : Session) : Except GoPanic Client :=
  .ok { c with Storage := some (storage_go.NewClient (c.options.url ++ STORAGE_URL)
                                  session.AccessToken c.options.headers) }

/-- Line 162: `c.Functions = functions.NewClient(...)`. -/
def UpdateAuthSession.setFunctions (c : Client) (session : Session) : Except GoPanic Client :=
  .ok { c with Functions := some (functions.NewClient (c.options.url ++ FUNCTIONS_URL)
                                    session.AccessToken c.options.headers) }

/-- The five statements of `UpdateAuthSession`, in source order. -/
def UpdateAuthSession.statements : List (Client → Session → Except GoPanic Client) :=
  [UpdateAuthSession.setAuth, UpdateAuthSession.setRest, UpdateAuthSession.setHeader,
   UpdateAuthSession.setStorage, UpdateAuthSession.setFunctions]

/-- Runs a list of statements; a panic stops the run. -/
def runStatements (stmts : List (Client → Session → Except GoPanic Client))
    (c : Client) (session : Session) : Except GoPanic Client :=
  match stmts with
  | [] => .ok c
  | f :: fs =>
    match f c session with
    | .error p => .error p
    | .ok c1 => runStatements fs c1 session

/-- The method `UpdateAuthSession` (lines 157-163). -/
def UpdateAuthSession (c : Client) (session : Session) : Except GoPanic Client :=
  runStatements UpdateAuthSession.statements c session

/-- The states of the client at the statement boundaries of a run: the state
before the first statement, then the state after each completed statement. -/
def boundaryStates (stmts : List (Client → Session → Except GoPanic Client))
    (c : Client) (session : Session) : List Client :=
  match stmts with
  | [] => [c]
  | f :: fs =>
    match f c session with
    | .error _ => [c]
    | .ok c1 => c :: boundaryStates fs c1 session

/-- The states a reader running beside `UpdateAuthSession` can find the client
in: the method takes no lock, so every statement boundary is visible. -/
def UpdateAuthSession.observable (c : Client) (session : Session) : List Client :=
  boundaryStates UpdateAuthSession.statements c session

/-- The pair a reader snapshots: the `Authorization` entry of the Header Set and the
token of the data-API handle. -/
def snapshot (c : Client) : Option String × Option String :=
  (mapGet c.options.headers "Authorization", c.rest.bind (fun r => r.token))

/-- The snapshot is consistent: the header is `"Bearer "` followed by the token
the data-API handle carries. -/
def matched (p : Option String × Option String) : Bool :=
  match p.2 with
  | some t => decide (p.1 = some ("Bearer " ++ t))
  | none => false

/-- The handles `UpdateAuthSession` dereferences are non-nil, as `NewClient`
leaves them: the data-API handle, the Auth handle and the header map. -/
def Client.initialized (c : Client) : Bool :=
  c.rest.isSome && c.Auth.isSome && c.options.headers.isSome

/-! ## Sign-in, refresh and token override -/

/-- The place of a `time.Sleep` call in the refresh loop: line 122 (the wait
before a refresh) or lines 131 and 134 (the wait after a failed refresh). -/
inductive SleepSite where
  | scheduled
  | backoff
  deriving DecidableEq, Repr

/-- What the facade does to its collaborators and to the runtime. -/
inductive Event where
  | authSignInEmail (email password : String)
  | authSignInPhone (phone password : String)
  | authRefresh (refreshToken : String)
  | updateAuthSession (session : Session)
  | sleep (site : SleepSite) (d : Int)
  | log (msg : String)
  deriving DecidableEq, Repr

/-- The result of a facade operation of Go type `(types.Session, error)`,
with the client as the operation leaves it and the events of the call. -/
structure FacadeResult where
  session : Session
  err : Option GoError
  client : Client
  events : List Event
  deriving DecidableEq

/-- The method `SignInWithEmailPassword` (lines 95-103).  `authSignIn` is the
answer of the Auth handle: an error, or the session of its token response. -/
def SignInWithEmailPassword (authSignIn : AuthClient → String → String → Except GoError Session)
    (c : Client) (email password : String) : Except GoPanic FacadeResult :=
  match c.Auth with
  | none => .error .nilDereference
  | some a =>
    match authSignIn a email password with
    | .error err =>
      .ok { session := Session.zero, err := some err, client := c,
            events := [.authSignInEmail email password] }
    | .ok session =>
      match UpdateAuthSession c session with
      | .error p => .error p
      | .ok c1 =>
        .ok { session := session, err := none, client := c1,
              events := [.authSignInEmail email password, .updateAuthSession session] }

/-- The method `SignInWithPhonePassword` (lines 105-112). -/
def SignInWithPhonePassword (authSignIn : AuthClient → String → String → Except GoError Session)
    (c : Client) (phone password : String) : Except GoPanic FacadeResult :=
  match c.Auth with
  | none => .error .nilDereference
  | some a =>
    match authSignIn a phone password with
    | .error err =>
      .ok { session := Session.zero, err := some err, client := c,
            events := [.authSignInPhone phone password] }
    | .ok session =>
      match UpdateAuthSession c session with
      | .error p => .error p
      | .ok c1 =>
        .ok { session := session, err := none, client := c1,
              events := [.authSignInPhone phone password, .updateAuthSession session] }

/-- The method `RefreshToken` (lines 148-155). -/
def RefreshToken (authRefresh : AuthClient → String → Except GoError Session)
    (c : Client) (refreshToken : String) : Except GoPanic FacadeResult :=
  match c.Auth with
  | none => .error .nilDereference
  | some a =>
    match authRefresh a refreshToken with
    | .error err =>
      .ok { session := Session.zero, err := some err, client := c,
            events := [.authRefresh refreshToken] }
    | .ok session =>
      match UpdateAuthSession c session with
      | .error p => .error p
      | .ok c1 =>
        .ok { session := session, err := none, client := c1,
              events := [.authRefresh refreshToken, .updateAuthSession session] }

/-- The loop of lines 172-174, `for key, value := range src { dst[key] = value }`,
on a destination that may be the nil map. -/
def copyEntries (dst : Option HeaderMap) (entries : List (String × String)) :
    Except GoPanic (Option HeaderMap) :=
  match entries with
  | [] => .ok dst
  | kv :: rest =>
    match mapSet dst kv.1 kv.2 with
    | .error p => .error p
    | .ok dst1 => copyEntries dst1 rest

/-- The method `WithToken` (lines 165-195); the receiver `none` is the nil
pointer. -/
def WithToken (c : Option Client) (token : String) :
    Except GoPanic (Option Client × Option GoError) :=
  match c with
  | none => .ok (none, some "cannot copy non-initialized client")
  | some c =>
    let clientCopy := Client.zero
    match copyEntries clientCopy.options.headers (mapEntries c.options.headers) with
    | .error p => .error p
    | .ok h1 =>
      match mapSet h1 "Authorization" ("Bearer " ++ token) with
      | .error p => .error p
      | .ok h2 =>
        let clientCopy : Client := { clientCopy with options := { clientCopy.options with headers := h2 } }
        let rest := postgrest.NewClient (clientCopy.options.url ++ REST_URL)
          clientCopy.options.schema clientCopy.options.headers
        let clientCopy : Client :=
          { clientCopy with rest := some (postgrest.SetAuthToken rest token) }
        match c.Auth with
        | none => .error .nilDereference
        | some a =>
          let clientCopy : Client := { clientCopy with Auth := some (auth.WithToken a token) }
          let clientCopy : Client :=
            { clientCopy with
              Storage := some (storage_go.NewClient (clientCopy.options.url ++ STORAGE_URL)
                token clientCopy.options.headers) }
          let clientCopy : Client :=
            { clientCopy with
              Functions := some (functions.NewClient (clientCopy.options.url ++ FUNCTIONS_URL)
                token clientCopy.options.headers) }
          .ok (some clientCopy, none)

/-! ## The refresh loop -/

/-- The constant `time.Second`, in nanoseconds. -/
def Second : Int := 1000000000

/-- The largest `time.Duration`. -/
def maxDuration : Int := 2 ^ 63 - 1

/-- The smallest `time.Duration`. -/
def minDuration : Int := -(2 ^ 63)

/-- The method `Time.Add`, on instants counted in nanoseconds. -/
def timeAdd (t d : Int) : Int := t + d

/-- The method `Time.Sub`: the difference of two instants, saturated to the
range of `time.Duration`. -/
def timeSub (t u : Int) : Int :=
  if t - u > maxDuration then maxDuration
  else if t - u < minDuration then minDuration
  else t - u

/-- The function `time.Until(t)`, that is `t.Sub(time.Now())`, with the clock
reading `now`. -/
def timeUntil (t now : Int) : Int := timeSub t now

/-- The expression `time.Now().Add(time.Duration(session.ExpiresIn) * time.Second)`
of lines 117 and 143, with the clock reading `now`. -/
def expiryHorizon (now : Int) (session : Session) : Int :=
  timeAdd now (wrap64 (session.ExpiresIn * Second))

/-- The expression `(time.Until(expiresAt) / 4) * 3` of line 120; integer division
in Go truncates toward zero. -/
def sleepDuration (expiresAt now : Int) : Int :=
  wrap64 (Int.tdiv (timeUntil expiresAt now) 4 * 3)

/-- The shift `x << n` on `int64` with a signed count: a panic on a negative
count, zero once the count reaches the width. -/
def shl64 (x n : Int) : Except GoPanic Int :=
  if n < 0 then .error .negativeShift else .ok (wrap64 (x * 2 ^ n.toNat))

/-- The local variables of the goroutine, and the client it holds. -/
structure LoopState where
  attempt : Int
  session : Session
  expiresAt : Int
  c : Client
  deriving DecidableEq

/-- What one pass of the loop reads from outside: the clock at line 120, the
answer of the Auth handle to the refresh of line 126, the clock at line 143. -/
structure IterEnv where
  nowTop : Int
  refresh : Except GoError Session
  nowAfter : Int

/-- Lines 120-123: the wait before a refresh, skipped when not positive. -/
def scheduledWait (st : LoopState) (env : IterEnv) : List Event :=
  if sleepDuration st.expiresAt env.nowTop > 0 then
    [.sleep .scheduled (sleepDuration st.expiresAt env.nowTop)]
  else []

/-- Lines 128-136: the failure branch, from the incremented counter. -/
def backoff (attempt : Int) (err : GoError) : Except GoPanic (List Event) :=
  if attempt ≤ 3 then
    match shl64 1 attempt with
    | .error p => .error p
    | .ok n =>
      .ok [.log ("Error refreshing token, retrying with exponential backoff: " ++ err),
           .sleep .backoff (wrap64 (n * Second))]
  else
    .ok [.log ("Error refreshing token, retrying every 30 seconds: " ++ err),
         .sleep .backoff (30 * Second)]

/-- One pass of the body of the `for` loop (lines 120-143). -/
def loopIteration (st : LoopState) (env : IterEnv) : Except GoPanic (LoopState × List Event) :=
  match RefreshToken (fun _ _ => env.refresh) st.c st.session.RefreshToken with
  | .error p => .error p
  | .ok r =>
    match r.err with
    | some err =>
      let attempt := wrap64 (st.attempt + 1)
      match backoff attempt err with
      | .error p => .error p
      | .ok evs =>
        .ok ({ st with attempt := attempt, c := r.client },
             scheduledWait st env ++ r.events ++ evs)
    | none =>
      match UpdateAuthSession r.client r.session with
      | .error p => .error p
      | .ok c1 =>
        .ok ({ attempt := 0, session := r.session,
               expiresAt := expiryHorizon env.nowAfter r.session, c := c1 },
             scheduledWait st env ++ r.events ++ [.updateAuthSession r.session])

/-- The first passes of the loop, one per element of `envs`. -/
def refreshLoop (st : LoopState) (envs : List IterEnv) :
    Except GoPanic (LoopState × List Event) :=
  match envs with
  | [] => .ok (st, [])
  | env :: rest =>
    match loopIteration st env with
    | .error p => .error p
    | .ok (st1, evs1) =>
      match refreshLoop st1 rest with
      | .error p => .error p
      | .ok (st2, evs2) => .ok (st2, evs1 ++ evs2)

/-- Lines 116-117: the local variables of the goroutine as the loop is entered;
`now` is the clock at line 117. -/
def loopStart (c : Client) (session : Session) (now : Int) : LoopState :=
  { attempt := 0, session := session, expiresAt := expiryHorizon now session, c := c }

/-- The goroutine of `EnableTokenAutoRefresh` (lines 114-146) run for
`envs.length` passes of its loop; `now` is the clock at line 117. -/
def EnableTokenAutoRefresh (c : Client) (session : Session) (now : Int)
    (envs : List IterEnv) : Except GoPanic (LoopState × List Event) :=
  refreshLoop (loopStart c session now) envs

/-- The durations of the back-off sleeps of a run, in order. -/
def backoffSleeps (evs : List Event) : List Int :=
  evs.filterMap (fun e => match e with
    | .sleep .backoff d => some d
    | _ => none)

/-- The durations of the sleeps before a refresh (line 122) of a run, in order. -/
def scheduledSleeps (evs : List Event) : List Int :=
  evs.filterMap (fun e => match e with
    | .sleep .scheduled d => some d
    | _ => none)

/-- Whether a refresh answer is a failure. -/
def IterEnv.failed (env : IterEnv) : Bool :=
  match env.refresh with
  | .error _ => true
  | .ok _ => false

/-- The back-off the specification words for the k-th consecutive failure:
`2^k` seconds for k = 1, 2, 3 and 30 seconds from the fourth on. -/
def specBackoff (k : Nat) : Int :=
  if k ≤ 3 then 2 ^ k * Second else 30 * Second

/-- The back-off sleeps the specification words for a sequence of refresh
outcomes (`true` is a failure), `k` being the number of consecutive failures so
far: a failure sleeps `specBackoff (k + 1)`, a success resets the count. -/
def specBackoffSleeps (k : Nat) (failures : List Bool) : List Int :=
  match failures with
  | [] => []
  | true :: rest => specBackoff (k + 1) :: specBackoffSleeps (k + 1) rest
  | false :: rest => specBackoffSleeps 0 rest

/-- The wait the specification words for a remaining time `d`: three quarters
of it, computed as `(d / 4) * 3` with truncating division. -/
def specWait (d : Int) : Int := Int.tdiv d 4 * 3

/-- The waits before a refresh that the specification words for a run from the
expiry horizon `horizon`: at each pass the remaining time is the horizon minus
the clock of that pass, the loop sleeps `specWait` of it when that is positive
and not at all otherwise; a successful refresh moves the horizon to the clock
after it plus the `expiresIn` of the new session, a failed one leaves it. -/
def specScheduledSleeps (horizon : Int) (envs : List IterEnv) : List Int :=
  match envs with
  | [] => []
  | env :: rest =>
    let next :=
      match env.refresh with
      | .ok s => expiryHorizon env.nowAfter s
      | .error _ => horizon
    if 0 < specWait (timeUntil horizon env.nowTop) then
      specWait (timeUntil horizon env.nowTop) :: specScheduledSleeps next rest
    else specScheduledSleeps next rest

/-! ## Example inputs -/

/-- The options of the counterexample: a caller-supplied `Authorization` header. -/
def optionsWithAuthorization : ClientOptions :=
  { Headers := some ((∅ : HeaderMap).insert "Authorization" "Basic dXNlcjpwdw=="), Schema := "" }

/-- A client as `NewClient` builds it, with no options. -/
def exampleClient : Client :=
  ((NewClient "https://p.supabase.co" "anon" none).1).getD Client.zero

/-- A session as a sign-in returns it. -/
def exampleSession : Session :=
  { AccessToken := "tok1", RefreshToken := "ref1", ExpiresIn := 3600 }

/-- The session of a later refresh. -/
def laterSession : Session :=
  { AccessToken := "tok2", RefreshToken := "ref2", ExpiresIn := 3600 }

/-- The example client after the propagation of the example session. -/
def signedInClient : Client :=
  match UpdateAuthSession exampleClient exampleSession with
  | .ok c => c
  | .error _ => Client.zero

/-- An Auth handle that rejects every sign-in. -/
def rejectingAuth : AuthClient → String → String → Except GoError Session :=
  fun _ _ _ => .error "invalid login credentials"

/-- A pass of the loop whose refresh fails, with the clock standing at 0. -/
def failingPass : IterEnv := { nowTop := 0, refresh := .error "network down", nowAfter := 0 }

/-- A pass of the loop whose refresh succeeds, with the clock standing at 0. -/
def succeedingPass : IterEnv := { nowTop := 0, refresh := .ok laterSession, nowAfter := 0 }

/-- Five failures, a success, then one more failure. -/
def examplePasses : List IterEnv :=
  [failingPass, failingPass, failingPass, failingPass, failingPass, succeedingPass, failingPass]

/-- Four passes with a moving clock, in seconds 0, 2702, 3700 and 3701 after the
start: two failed refreshes, a refresh that succeeds after the expiry, and a
failed one. -/
def driftingPasses : List IterEnv :=
  [{ nowTop := 0, refresh := .error "network down", nowAfter := 0 },
   { nowTop := 2702 * Second, refresh := .error "network down", nowAfter := 2702 * Second },
   { nowTop := 3700 * Second, refresh := .ok laterSession, nowAfter := 3701 * Second },
   { nowTop := 3701 * Second, refresh := .error "network down", nowAfter := 3701 * Second }]

/-- A session that has already expired when the loop starts. -/
def expiredSession : Session := { AccessToken := "tok0", RefreshToken := "ref0", ExpiresIn := 0 }

/-! ## Lemmas on header maps and on `NewClient` -/

theorem foldl_insert_lookup (l : List (Sigma (fun _ : String => String))) (hnd : l.NodupKeys)
    (dst : HeaderMap) (k : String) :
    ((l.map (fun e => (e.1, e.2))).foldl (fun acc kv => acc.insert kv.1 kv.2) dst).lookup k
      = match List.dlookup k l with
        | some v => some v
        | none => dst.lookup k := by
  induction l generalizing dst with
  | nil => simp
  | cons e l ih =>
    obtain ⟨hnot, hl⟩ := List.nodupKeys_cons.mp hnd
    simp only [List.map_cons, List.foldl_cons]
    rw [ih hl]
    by_cases hk : k = e.1
    · subst hk
      have h1 : List.dlookup e.1 l = none := List.dlookup_eq_none.mpr hnot
      have h2 : List.dlookup e.1 (e :: l) = some e.2 := by
        cases e with
        | mk a b => exact List.dlookup_cons_eq l a b
      rw [h1, h2]
      simp [AList.lookup_insert]
    · have h2 : List.dlookup k (e :: l) = List.dlookup k l := List.dlookup_cons_ne l e hk
      rw [h2]
      cases List.dlookup k l with
      | some v => rfl
      | none => simp [AList.lookup_insert_ne hk]

theorem mergeHeaders_lookup (dst H : HeaderMap) (k : String) :
    (mergeHeaders dst (some H)).lookup k
      = match H.lookup k with
        | some v => some v
        | none => dst.lookup k := by
  unfold mergeHeaders mapEntries
  exact foldl_insert_lookup H.entries H.nodupKeys dst k

theorem defaultHeaders_lookup (key k : String) :
    (defaultHeaders key).lookup k
      = if k = "Authorization" then some ("Bearer " ++ key)
        else if k = "apikey" then some key else none := by
  unfold defaultHeaders
  by_cases h1 : k = "apikey"
  · subst h1
    simp [AList.lookup_insert]
  · rw [AList.lookup_insert_ne h1]
    by_cases h2 : k = "Authorization"
    · subst h2
      rw [AList.lookup_insert]
      simp
    · rw [AList.lookup_insert_ne h2]
      simp [h1, h2]

theorem NewClient_ok (url key : String) (options : Option ClientOptions)
    (hu : url ≠ "") (hk : key ≠ "") :
    ∃ c, NewClient url key options = (some c, none) ∧
      c.options.headers = some (match options with
        | some o => match o.Headers with
          | some H => mergeHeaders (defaultHeaders key) (some H)
          | none => defaultHeaders key
        | none => defaultHeaders key) := by
  unfold NewClient
  rw [if_neg (by simp [hu, hk])]
  exact ⟨_, rfl, rfl⟩

/-- C7: `NewClient` returns an error exactly when `url` or `key` is empty, and
the client it returns is nil exactly then; so non-empty arguments succeed. -/
theorem NewClient_error_iff (url key : String) (options : Option ClientOptions) :
    ((NewClient url key options).2 ≠ none ↔ (url = "" ∨ key = "")) ∧
    ((NewClient url key options).1 = none ↔ (url = "" ∨ key = "")) := by
  unfold NewClient
  by_cases h : url = "" ∨ key = ""
  · rw [if_pos h]; simp [h]
  · rw [if_neg h]; simp [h]

/-- C8 fails as stated: with a caller-supplied `Authorization` header the
Header Set does not map `Authorization` to `"Bearer " + apiKey`. -/
theorem NewClient_caller_header_wins :
    ∃ c, NewClient "https://p.supabase.co" "anon" (some optionsWithAuthorization) = (some c, none) ∧
      mapGet c.options.headers "Authorization" = some "Basic dXNlcjpwdw==" ∧
      mapGet c.options.headers "Authorization" ≠ some ("Bearer " ++ "anon") := by
  refine ⟨_, rfl, ?_, ?_⟩ <;> decide

/-- C8, amended: for non-empty arguments `NewClient` succeeds, and the Header
Set maps `Authorization` to the value of the caller when the options carry one, and
to `"Bearer " + apiKey` otherwise (nil options, nil headers, or no such key). -/
theorem NewClient_authorization (url key : String) (options : Option ClientOptions)
    (hu : url ≠ "") (hk : key ≠ "") :
    ∃ c, NewClient url key options = (some c, none) ∧
      mapGet c.options.headers "Authorization"
        = some ((mapGet (options.bind (fun o => o.Headers)) "Authorization").getD
            ("Bearer " ++ key)) := by
  obtain ⟨c, hc, hh⟩ := NewClient_ok url key options hu hk
  refine ⟨c, hc, ?_⟩
  rw [hh]
  cases options with
  | none => simp [mapGet, defaultHeaders_lookup]
  | some o =>
    cases hH : o.Headers with
    | none => simp [mapGet, defaultHeaders_lookup, hH]
    | some H =>
      simp only [mapGet, Option.bind, hH]
      rw [mergeHeaders_lookup, defaultHeaders_lookup]
      cases H.lookup "Authorization" <;> simp

/-- An instance of `NewClient_authorization`, at options that carry an `Authorization` header. -/
theorem NewClient_authorization_witness :
    ("https://p.supabase.co" : String) ≠ "" ∧ ("anon" : String) ≠ "" ∧
    ∃ c, NewClient "https://p.supabase.co" "anon" (some optionsWithAuthorization) = (some c, none) ∧
      mapGet c.options.headers "Authorization"
        = some ((mapGet ((some optionsWithAuthorization).bind (fun o => o.Headers))
            "Authorization").getD ("Bearer " ++ "anon")) :=
  ⟨by decide, by decide,
    NewClient_authorization "https://p.supabase.co" "anon" (some optionsWithAuthorization)
      (by decide) (by decide)⟩

/-- C9: with non-nil option headers `H`, the Header Set of the new client is
the defaults overlaid by `H`: a key of `H` maps to its value in `H`, a default
key outside `H` keeps its default, and no other key is present. -/
theorem NewClient_headers_overlay (url key schema : String) (H : HeaderMap)
    (hu : url ≠ "") (hk : key ≠ "") :
    ∃ c, NewClient url key (some { Headers := some H, Schema := schema }) = (some c, none) ∧
      ∀ k, mapGet c.options.headers k
        = match H.lookup k with
          | some v => some v
          | none =>
            if k = "Authorization" then some ("Bearer " ++ key)
            else if k = "apikey" then some key else none := by
  obtain ⟨c, hc, hh⟩ := NewClient_ok url key (some { Headers := some H, Schema := schema }) hu hk
  refine ⟨c, hc, fun k => ?_⟩
  rw [hh]
  simp only [mapGet]
  rw [mergeHeaders_lookup, defaultHeaders_lookup]

/-- An instance of `NewClient_headers_overlay`, at option headers that collide with a default. -/
theorem NewClient_headers_overlay_witness :
    ("https://p.supabase.co" : String) ≠ "" ∧ ("anon" : String) ≠ "" ∧
    ∃ c, NewClient "https://p.supabase.co" "anon"
        (some { Headers := some ((∅ : HeaderMap).insert "Authorization" "Basic dXNlcjpwdw=="),
                Schema := "app" }) = (some c, none) ∧
      ∀ k, mapGet c.options.headers k
        = match ((∅ : HeaderMap).insert "Authorization" "Basic dXNlcjpwdw==").lookup k with
          | some v => some v
          | none =>
            if k = "Authorization" then some ("Bearer " ++ "anon")
            else if k = "apikey" then some "anon" else none :=
  ⟨by decide, by decide,
    NewClient_headers_overlay "https://p.supabase.co" "anon" "app"
      ((∅ : HeaderMap).insert "Authorization" "Basic dXNlcjpwdw==") (by decide) (by decide)⟩

/-! ## Propagation, sign-in and token override -/

theorem UpdateAuthSession_ok (c : Client) (S : Session) (hc : c.initialized = true) :
    ∃ r a h, c.rest = some r ∧ c.Auth = some a ∧ c.options.headers = some h ∧
      UpdateAuthSession c S = .ok
        { rest := some (postgrest.SetAuthToken r S.AccessToken)
          Auth := some (auth.WithToken a S.AccessToken)
          Storage := some (storage_go.NewClient (c.options.url ++ STORAGE_URL) S.AccessToken
            (some (h.insert "Authorization" ("Bearer " ++ S.AccessToken))))
          Functions := some (functions.NewClient (c.options.url ++ FUNCTIONS_URL) S.AccessToken
            (some (h.insert "Authorization" ("Bearer " ++ S.AccessToken))))
          options := { c.options with
            headers := some (h.insert "Authorization" ("Bearer " ++ S.AccessToken)) } } := by
  obtain ⟨rest, Storage, Auth, Functions, ⟨url, headers, schema⟩⟩ := c
  cases rest with
  | none => simp [Client.initialized] at hc
  | some r =>
    cases Auth with
    | none => simp [Client.initialized] at hc
    | some a =>
      cases headers with
      | none => simp [Client.initialized] at hc
      | some h =>
        exact ⟨r, a, h, rfl, rfl, rfl, rfl⟩

theorem UpdateAuthSession_initialized (c c1 : Client) (S : Session)
    (hc : c.initialized = true) (h : UpdateAuthSession c S = .ok c1) :
    c1.initialized = true := by
  obtain ⟨r, a, hm, _, _, _, hu⟩ := UpdateAuthSession_ok c S hc
  rw [hu] at h
  cases h
  rfl

theorem NewClient_initialized (url key : String) (options : Option ClientOptions) (c : Client)
    (h : (NewClient url key options).1 = some c) : c.initialized = true := by
  unfold NewClient at h
  by_cases he : url = "" ∨ key = ""
  · rw [if_pos he] at h
    simp at h
  · rw [if_neg he] at h
    simp only [Option.some.injEq] at h
    subst h
    rfl

/-- C1: on a client whose handles are in place (so is every client `NewClient`
returns, and `UpdateAuthSession` keeps it so), `UpdateAuthSession` completes;
afterwards the Header Set maps `Authorization` to `"Bearer " + S.AccessToken`,
the data-API, Auth, storage and functions handles all carry `S.AccessToken`, and
the storage and functions handles were built from a Header Set that already
holds the new `Authorization` value. -/
theorem UpdateAuthSession_propagates (c : Client) (S : Session) (hc : c.initialized = true) :
    ∃ c1 r a st fn, UpdateAuthSession c S = .ok c1 ∧
      mapGet c1.options.headers "Authorization" = some ("Bearer " ++ S.AccessToken) ∧
      c1.rest = some r ∧ r.token = some S.AccessToken ∧
      c1.Auth = some a ∧ a.token = some S.AccessToken ∧
      c1.Storage = some st ∧ st.token = S.AccessToken ∧
      c1.Functions = some fn ∧ fn.token = S.AccessToken ∧
      mapGet st.headers "Authorization" = some ("Bearer " ++ S.AccessToken) ∧
      mapGet fn.headers "Authorization" = some ("Bearer " ++ S.AccessToken) := by
  obtain ⟨r, a, h, _, _, _, hu⟩ := UpdateAuthSession_ok c S hc
  refine ⟨_, _, _, _, _, hu, ?_, rfl, rfl, rfl, rfl, rfl, rfl, rfl, rfl, ?_, ?_⟩ <;>
    simp [mapGet, storage_go.NewClient, functions.NewClient, AList.lookup_insert]

/-- An instance of `UpdateAuthSession_propagates`: a signed-in client receives a later session. -/
theorem UpdateAuthSession_propagates_witness :
    signedInClient.initialized = true ∧
    ∃ c1 r a st fn, UpdateAuthSession signedInClient laterSession = .ok c1 ∧
      mapGet c1.options.headers "Authorization" = some ("Bearer " ++ laterSession.AccessToken) ∧
      c1.rest = some r ∧ r.token = some laterSession.AccessToken ∧
      c1.Auth = some a ∧ a.token = some laterSession.AccessToken ∧
      c1.Storage = some st ∧ st.token = laterSession.AccessToken ∧
      c1.Functions = some fn ∧ fn.token = laterSession.AccessToken ∧
      mapGet st.headers "Authorization" = some ("Bearer " ++ laterSession.AccessToken) ∧
      mapGet fn.headers "Authorization" = some ("Bearer " ++ laterSession.AccessToken) :=
  ⟨by decide, UpdateAuthSession_propagates signedInClient laterSession (by decide)⟩

/-- C2: when the Auth handle answers a sign-in (by e-mail or by phone) with an
error `e`, the facade returns the empty session and exactly `e`, its only event
is the call of the Auth handle (`UpdateAuthSession` is not invoked), and the
client is left as it was. -/
theorem SignIn_failure_no_mutation
    (authSignIn : AuthClient → String → String → Except GoError Session)
    (c : Client) (a : AuthClient) (user password : String) (e : GoError)
    (ha : c.Auth = some a) (he : authSignIn a user password = .error e) :
    SignInWithEmailPassword authSignIn c user password
      = .ok { session := Session.zero, err := some e, client := c,
              events := [.authSignInEmail user password] } ∧
    SignInWithPhonePassword authSignIn c user password
      = .ok { session := Session.zero, err := some e, client := c,
              events := [.authSignInPhone user password] } := by
  constructor
  · simp [SignInWithEmailPassword, ha, he]
  · simp [SignInWithPhonePassword, ha, he]

/-- An instance of `SignIn_failure_no_mutation`: the Auth handle rejects the credentials. -/
theorem SignIn_failure_no_mutation_witness :
    signedInClient.Auth = some (auth.WithToken
      (auth.WithCustomAuthURL (auth.New "https://p.supabase.co" "anon")
        ("https://p.supabase.co" ++ AUTH_URL)) "tok1") ∧
    SignInWithEmailPassword rejectingAuth signedInClient "a@b.c" "pw"
      = .ok { session := Session.zero, err := some "invalid login credentials",
              client := signedInClient, events := [.authSignInEmail "a@b.c" "pw"] } ∧
    SignInWithPhonePassword rejectingAuth signedInClient "a@b.c" "pw"
      = .ok { session := Session.zero, err := some "invalid login credentials",
              client := signedInClient, events := [.authSignInPhone "a@b.c" "pw"] } :=
  ⟨rfl,
    SignIn_failure_no_mutation rejectingAuth signedInClient
      (auth.WithToken (auth.WithCustomAuthURL (auth.New "https://p.supabase.co" "anon")
        ("https://p.supabase.co" ++ AUTH_URL)) "tok1") "a@b.c" "pw"
      "invalid login credentials" rfl rfl⟩

theorem copyEntries_nil_map (entries : List (String × String)) (h : Option HeaderMap)
    (hc : copyEntries none entries = .ok h) : h = none := by
  cases entries with
  | nil => simp [copyEntries] at hc; exact hc.symm
  | cons kv rest => simp [copyEntries, mapSet] at hc

/-- C6: `WithToken` returns its error on the nil receiver, but on no client does
it return a copy: for every non-nil receiver and every token it ends in the
panic of an assignment to an entry of a nil map, since the copy is the zero
`Client` whose header map is never allocated; so it does on the client that
`NewClient` returns. -/
theorem WithToken_panics :
    WithToken none "override" = .ok (none, some "cannot copy non-initialized client") ∧
    (∀ (c : Client) (token : String), WithToken (some c) token = .error .assignNilMap) ∧
    WithToken (NewClient "https://p.supabase.co" "anon" none).1 "override"
      = .error .assignNilMap := by
  have key : ∀ (c : Client) (token : String),
      WithToken (some c) token = .error .assignNilMap := by
    intro c token
    unfold WithToken
    simp only [Client.zero]
    cases hce : copyEntries none (mapEntries c.options.headers) with
    | error p =>
      cases hm : mapEntries c.options.headers with
      | nil => rw [hm] at hce; simp [copyEntries] at hce
      | cons kv rest =>
        rw [hm] at hce
        simp [copyEntries, mapSet] at hce
        simp [hce]
    | ok h1 =>
      have := copyEntries_nil_map _ _ hce
      subst this
      simp [mapSet]
  exact ⟨rfl, key, key _ _⟩

/-! ## The refresh loop: arithmetic and one pass -/

theorem wrap64_of_range (x : Int) (h1 : -(2 ^ 63) ≤ x) (h2 : x < 2 ^ 63) : wrap64 x = x := by
  unfold wrap64
  omega

theorem backoffSleeps_append (xs ys : List Event) :
    backoffSleeps (xs ++ ys) = backoffSleeps xs ++ backoffSleeps ys := by
  simp [backoffSleeps, List.filterMap_append]

theorem backoffSleeps_scheduledWait (st : LoopState) (env : IterEnv) :
    backoffSleeps (scheduledWait st env) = [] := by
  unfold scheduledWait
  split <;> simp [backoffSleeps]

theorem backoff_spec (k : Nat) (err : GoError) (hk : (k : Int) + 1 < 2 ^ 63) :
    ∃ msg, backoff (wrap64 ((k : Int) + 1)) err
      = .ok [.log msg, .sleep .backoff (specBackoff (k + 1))] := by
  have hw : wrap64 ((k : Int) + 1) = (k : Int) + 1 := wrap64_of_range _ (by omega) hk
  rw [hw]
  unfold backoff specBackoff
  by_cases h3 : k + 1 ≤ 3
  · have h3i : (k : Int) + 1 ≤ 3 := by omega
    rw [if_pos h3i, if_pos h3]
    have hcases : k = 0 ∨ k = 1 ∨ k = 2 := by omega
    rcases hcases with h | h | h <;> subst h <;> exact ⟨_, rfl⟩
  · have h3i : ¬ ((k : Int) + 1 ≤ 3) := by omega
    rw [if_neg h3i, if_neg h3]
    exact ⟨_, rfl⟩

theorem loopIteration_failure (st : LoopState) (env : IterEnv) (k : Nat) (err : GoError)
    (hc : st.c.initialized = true) (hk : st.attempt = (k : Int)) (hb : (k : Int) + 1 < 2 ^ 63)
    (he : env.refresh = .error err) :
    ∃ st1 msg, loopIteration st env
        = .ok (st1, scheduledWait st env ++ Event.authRefresh st.session.RefreshToken ::
            [.log msg, .sleep .backoff (specBackoff (k + 1))]) ∧
      st1.c = st.c ∧ st1.attempt = (k : Int) + 1 ∧ st1.session = st.session ∧
      st1.expiresAt = st.expiresAt := by
  obtain ⟨r, a, h, hr, ha, hh, -⟩ := UpdateAuthSession_ok st.c st.session hc
  obtain ⟨msg, hmsg⟩ := backoff_spec k err hb
  refine ⟨{ st with attempt := wrap64 (st.attempt + 1) }, msg, ?_, rfl, ?_, rfl, rfl⟩
  · simp [loopIteration, RefreshToken, ha, he, hk, hmsg]
  · simp only [hk]
    exact wrap64_of_range _ (by omega) hb

theorem loopIteration_success (st : LoopState) (env : IterEnv) (s : Session)
    (hc : st.c.initialized = true) (he : env.refresh = .ok s) :
    ∃ st1, loopIteration st env
        = .ok (st1, scheduledWait st env ++ Event.authRefresh st.session.RefreshToken ::
            [.updateAuthSession s, .updateAuthSession s]) ∧
      st1.c.initialized = true ∧ st1.attempt = 0 ∧ st1.session = s ∧
      st1.expiresAt = expiryHorizon env.nowAfter s := by
  obtain ⟨r, a, h, hr, ha, hh, hu⟩ := UpdateAuthSession_ok st.c s hc
  have hc1 := UpdateAuthSession_initialized _ _ s hc hu
  obtain ⟨r2, a2, h2, -, -, -, hu2⟩ := UpdateAuthSession_ok _ s hc1
  have hc2 := UpdateAuthSession_initialized _ _ s hc1 hu2
  refine ⟨{ attempt := 0, session := s, expiresAt := expiryHorizon env.nowAfter s, c := _ },
    ?_, hc2, rfl, rfl, rfl⟩
  simp only [loopIteration, RefreshToken, ha, he, hu, hu2]
  simp

theorem tdiv_four_of_nonneg (a : Int) (h : 0 ≤ a) : Int.tdiv a 4 = a / 4 :=
  Int.tdiv_eq_ediv h (by decide)

theorem tdiv_four_of_nonpos (a : Int) (h : a ≤ 0) : Int.tdiv a 4 = -((-a) / 4) := by
  have h1 : Int.tdiv (-(-a)) 4 = -(Int.tdiv (-a) 4) := Int.neg_tdiv (-a) 4
  rw [Int.neg_neg] at h1
  rw [h1, Int.tdiv_eq_ediv (by omega) (by decide)]

theorem timeUntil_range (t now : Int) :
    -(2 ^ 63) ≤ timeUntil t now ∧ timeUntil t now < 2 ^ 63 := by
  unfold timeUntil timeSub maxDuration minDuration
  split
  · omega
  · split <;> omega

theorem sleepDuration_of_nonneg (t now : Int) (h : 0 ≤ timeUntil t now) :
    sleepDuration t now = timeUntil t now / 4 * 3 := by
  unfold sleepDuration
  have hr := timeUntil_range t now
  rw [tdiv_four_of_nonneg _ h]
  exact wrap64_of_range _ (by omega) (by omega)

theorem sleepDuration_of_nonpos (t now : Int) (h : timeUntil t now ≤ 0) :
    sleepDuration t now ≤ 0 := by
  unfold sleepDuration
  have hr := timeUntil_range t now
  rw [tdiv_four_of_nonpos _ h]
  rw [wrap64_of_range _ (by omega) (by omega)]
  omega

theorem refreshLoop_spec (envs : List IterEnv) :
    ∀ (st : LoopState) (k : Nat), st.c.initialized = true → st.attempt = (k : Int) →
      (k : Int) + envs.length < 2 ^ 63 →
      ∃ st1 evs, refreshLoop st envs = .ok (st1, evs) ∧
        backoffSleeps evs = specBackoffSleeps k (envs.map IterEnv.failed) ∧
        ∀ env rest, envs = env :: rest →
          ∃ tail, evs = scheduledWait st env ++
            Event.authRefresh st.session.RefreshToken :: tail := by
  induction envs with
  | nil =>
    intro st k _ _ _
    exact ⟨st, [], rfl, rfl, fun env rest h => by cases h⟩
  | cons env envs ih =>
    intro st k hc hk hb
    simp only [List.length_cons, Nat.cast_add, Nat.cast_one] at hb
    cases he : env.refresh with
    | error err =>
      obtain ⟨st1, msg, h1, hc1, ha1, -, -⟩ :=
        loopIteration_failure st env k err hc hk (by omega) he
      have hk1 : st1.attempt = ((k + 1 : Nat) : Int) := by simp [ha1]
      obtain ⟨st2, evs2, h2, hs2, -⟩ := ih st1 (k + 1) (by rw [hc1]; exact hc) hk1
        (by push_cast; omega)
      refine ⟨st2, (scheduledWait st env ++ Event.authRefresh st.session.RefreshToken ::
        [.log msg, .sleep .backoff (specBackoff (k + 1))]) ++ evs2, ?_, ?_, ?_⟩
      · simp only [refreshLoop, h1, h2]
      · rw [backoffSleeps_append, backoffSleeps_append, backoffSleeps_scheduledWait, hs2]
        simp [backoffSleeps, specBackoffSleeps, IterEnv.failed, he]
      · intro env1 rest hcons
        cases hcons
        exact ⟨Event.log msg :: Event.sleep .backoff (specBackoff (k + 1)) :: evs2, by simp⟩
    | ok s =>
      obtain ⟨st1, h1, hc1, ha1, -, -⟩ := loopIteration_success st env s hc he
      obtain ⟨st2, evs2, h2, hs2, -⟩ := ih st1 0 hc1 (by simp [ha1]) (by push_cast; omega)
      refine ⟨st2, (scheduledWait st env ++ Event.authRefresh st.session.RefreshToken ::
        [.updateAuthSession s, .updateAuthSession s]) ++ evs2, ?_, ?_, ?_⟩
      · simp only [refreshLoop, h1, h2]
      · rw [backoffSleeps_append, backoffSleeps_append, backoffSleeps_scheduledWait, hs2]
        simp [backoffSleeps, specBackoffSleeps, IterEnv.failed, he]
      · intro env1 rest hcons
        cases hcons
        exact ⟨Event.updateAuthSession s :: Event.updateAuthSession s :: evs2, by simp⟩

/-! ## The refresh loop: schedule and back-off -/

theorem expiryHorizon_of_range (now : Int) (session : Session)
    (h1 : -(2 ^ 63) ≤ session.ExpiresIn * Second) (h2 : session.ExpiresIn * Second < 2 ^ 63) :
    expiryHorizon now session = now + session.ExpiresIn * Second := by
  unfold expiryHorizon timeAdd
  rw [wrap64_of_range _ h1 h2]

theorem EnableTokenAutoRefresh_head (c : Client) (session : Session) (now : Int)
    (env : IterEnv) (envs : List IterEnv) (hc : c.initialized = true)
    (hlen : (envs.length : Int) + 1 < 2 ^ 63) :
    ∃ st tail, EnableTokenAutoRefresh c session now (env :: envs)
      = .ok (st, scheduledWait (loopStart c session now) env ++
              Event.authRefresh session.RefreshToken :: tail) := by
  obtain ⟨st1, evs, hrun, -, hhead⟩ := refreshLoop_spec (env :: envs)
    (loopStart c session now) 0
    hc rfl (by simp only [List.length_cons]; push_cast; omega)
  obtain ⟨tail, htail⟩ := hhead env envs rfl
  exact ⟨st1, tail, by rw [EnableTokenAutoRefresh, hrun, htail]; rfl⟩

/-- C3: run from a client whose handles are in place, over any sequence of
refresh outcomes short enough for the `int` counter (fewer than 2^63 passes),
the loop completes every pass and its back-off sleeps are exactly those the
specification words: the k-th consecutive failure sleeps `specBackoff k`, which
is 2 s, 4 s, 8 s for k = 1, 2, 3 and 30 s for every k from 4 on, and a success
resets k to 0. -/
theorem EnableTokenAutoRefresh_backoff (c : Client) (session : Session) (now : Int)
    (envs : List IterEnv) (hc : c.initialized = true) (hlen : (envs.length : Int) < 2 ^ 63) :
    (∃ st evs, EnableTokenAutoRefresh c session now envs = .ok (st, evs) ∧
      backoffSleeps evs = specBackoffSleeps 0 (envs.map IterEnv.failed)) ∧
    specBackoff 1 = 2 * Second ∧ specBackoff 2 = 4 * Second ∧ specBackoff 3 = 8 * Second ∧
    ∀ k, 4 ≤ k → specBackoff k = 30 * Second := by
  refine ⟨?_, rfl, rfl, rfl, ?_⟩
  · obtain ⟨st1, evs, hrun, hs, -⟩ := refreshLoop_spec envs
      (loopStart c session now) 0 hc rfl (by push_cast; omega)
    exact ⟨st1, evs, hrun, hs⟩
  · intro k hk
    unfold specBackoff
    rw [if_neg (by omega)]

/-- An instance of `EnableTokenAutoRefresh_backoff`: five failures sleep 2 s, 4 s, 8 s, 30 s,
30 s, and the failure after a success sleeps 2 s again. -/
theorem EnableTokenAutoRefresh_backoff_witness :
    exampleClient.initialized = true ∧ (examplePasses.length : Int) < 2 ^ 63 ∧
    specBackoffSleeps 0 (examplePasses.map IterEnv.failed)
      = [2000000000, 4000000000, 8000000000, 30000000000, 30000000000, 2000000000] ∧
    ((∃ st evs, EnableTokenAutoRefresh exampleClient exampleSession 0 examplePasses = .ok (st, evs) ∧
      backoffSleeps evs = specBackoffSleeps 0 (examplePasses.map IterEnv.failed)) ∧
    specBackoff 1 = 2 * Second ∧ specBackoff 2 = 4 * Second ∧ specBackoff 3 = 8 * Second ∧
    ∀ k, 4 ≤ k → specBackoff k = 30 * Second) :=
  ⟨by decide, by decide, by decide,
    EnableTokenAutoRefresh_backoff exampleClient exampleSession 0 examplePasses
      (by decide) (by decide)⟩

theorem scheduledSleeps_append (xs ys : List Event) :
    scheduledSleeps (xs ++ ys) = scheduledSleeps xs ++ scheduledSleeps ys := by
  simp [scheduledSleeps, List.filterMap_append]

theorem sleepDuration_eq_specWait (t now : Int) :
    sleepDuration t now = specWait (timeUntil t now) := by
  unfold sleepDuration specWait
  have hr := timeUntil_range t now
  by_cases h : 0 ≤ timeUntil t now
  · rw [tdiv_four_of_nonneg _ h]
    exact wrap64_of_range _ (by omega) (by omega)
  · rw [tdiv_four_of_nonpos _ (by omega)]
    exact wrap64_of_range _ (by omega) (by omega)

theorem scheduledSleeps_scheduledWait (st : LoopState) (env : IterEnv) :
    scheduledSleeps (scheduledWait st env)
      = if 0 < specWait (timeUntil st.expiresAt env.nowTop) then
          [specWait (timeUntil st.expiresAt env.nowTop)]
        else [] := by
  unfold scheduledWait
  rw [sleepDuration_eq_specWait]
  split <;> simp [scheduledSleeps]

theorem refreshLoop_waits (envs : List IterEnv) :
    ∀ (st : LoopState) (k : Nat), st.c.initialized = true → st.attempt = (k : Int) →
      (k : Int) + envs.length < 2 ^ 63 →
      ∃ st1 evs, refreshLoop st envs = .ok (st1, evs) ∧
        scheduledSleeps evs = specScheduledSleeps st.expiresAt envs := by
  induction envs with
  | nil =>
    intro st k _ _ _
    exact ⟨st, [], rfl, rfl⟩
  | cons env envs ih =>
    intro st k hc hk hb
    simp only [List.length_cons, Nat.cast_add, Nat.cast_one] at hb
    cases he : env.refresh with
    | error err =>
      obtain ⟨st1, msg, h1, hc1, ha1, -, hx1⟩ :=
        loopIteration_failure st env k err hc hk (by omega) he
      have hk1 : st1.attempt = ((k + 1 : Nat) : Int) := by simp [ha1]
      obtain ⟨st2, evs2, h2, hs2⟩ := ih st1 (k + 1) (by rw [hc1]; exact hc) hk1
        (by push_cast; omega)
      refine ⟨st2, (scheduledWait st env ++ Event.authRefresh st.session.RefreshToken ::
        [.log msg, .sleep .backoff (specBackoff (k + 1))]) ++ evs2, ?_, ?_⟩
      · simp only [refreshLoop, h1, h2]
      · rw [scheduledSleeps_append, scheduledSleeps_append, scheduledSleeps_scheduledWait,
          hs2, hx1]
        simp only [specScheduledSleeps, he]
        split <;> simp [scheduledSleeps]
    | ok s =>
      obtain ⟨st1, h1, hc1, ha1, -, hx1⟩ := loopIteration_success st env s hc he
      obtain ⟨st2, evs2, h2, hs2⟩ := ih st1 0 hc1 (by simp [ha1]) (by push_cast; omega)
      refine ⟨st2, (scheduledWait st env ++ Event.authRefresh st.session.RefreshToken ::
        [.updateAuthSession s, .updateAuthSession s]) ++ evs2, ?_, ?_⟩
      · simp only [refreshLoop, h1, h2]
      · rw [scheduledSleeps_append, scheduledSleeps_append, scheduledSleeps_scheduledWait,
          hs2, hx1]
        simp only [specScheduledSleeps, he]
        split <;> simp [scheduledSleeps]

/-- C4: the wait of the loop is three quarters of the time remaining until
expiry, at every pass and whatever the clock.  Run from a client whose handles
are in place over any passes (fewer than 2^63), the sleeps before a refresh are
exactly `specScheduledSleeps`: at each pass the remaining time d is the current
horizon minus the clock of that pass, and the loop sleeps `specWait d`, that is
`(d / 4) * 3`, when positive and not at all otherwise; for d not negative this
wait w satisfies 3d/4 - 3 < w <= 3d/4 (over the integers 3d - 12 < 4w and
4w <= 3d), and for d not positive it is not positive.  In particular, for a
session whose `expiresIn` is E seconds, with E * 10^9 positive and below 2^63,
and a clock that has not moved since the horizon was computed, the wait is
exactly E * 750000000 ns, three quarters of E seconds, and it is the first
sleep of the loop. -/
theorem sleepDuration_three_quarters (c : Client) (session : Session) (now : Int)
    (env : IterEnv) (envs : List IterEnv) (expiresAt clock : Int)
    (start : Session) (t0 : Int) (passes : List IterEnv) (d : Int)
    (hc : c.initialized = true)
    (hpos : 0 < session.ExpiresIn * Second) (hlt : session.ExpiresIn * Second < 2 ^ 63)
    (hnow : env.nowTop = now) (hlen : (envs.length : Int) + 1 < 2 ^ 63)
    (hd : 0 ≤ timeUntil expiresAt clock)
    (hpasses : (passes.length : Int) < 2 ^ 63) (hd0 : 0 ≤ d) :
    sleepDuration (expiryHorizon now session) now = session.ExpiresIn * 750000000 ∧
    (∃ st tail, EnableTokenAutoRefresh c session now (env :: envs)
      = .ok (st, Event.sleep .scheduled (session.ExpiresIn * 750000000) :: tail)) ∧
    (3 * timeUntil expiresAt clock - 12 < 4 * sleepDuration expiresAt clock ∧
      4 * sleepDuration expiresAt clock ≤ 3 * timeUntil expiresAt clock) ∧
    (∃ st evs, EnableTokenAutoRefresh c start t0 passes = .ok (st, evs) ∧
      scheduledSleeps evs = specScheduledSleeps (expiryHorizon t0 start) passes) ∧
    (3 * d - 12 < 4 * specWait d ∧ 4 * specWait d ≤ 3 * d) ∧
    (∀ r, r ≤ 0 → specWait r ≤ 0) := by
  have hh := expiryHorizon_of_range now session (by omega) hlt
  have hu : timeUntil (expiryHorizon now session) now = session.ExpiresIn * Second := by
    rw [hh]
    unfold timeUntil timeSub maxDuration minDuration
    rw [if_neg (by omega), if_neg (by omega)]
    omega
  have hs : sleepDuration (expiryHorizon now session) now = session.ExpiresIn * 750000000 := by
    rw [sleepDuration_of_nonneg _ _ (by omega), hu]
    unfold Second
    omega
  refine ⟨hs, ?_, ?_, ?_, ?_, ?_⟩
  · obtain ⟨st, tail, hrun⟩ := EnableTokenAutoRefresh_head c session now env envs hc hlen
    refine ⟨st, Event.authRefresh session.RefreshToken :: tail, ?_⟩
    have hpos2 : sleepDuration (expiryHorizon now session) env.nowTop > 0 := by
      rw [hnow, hs]
      unfold Second at hpos
      omega
    have hw : scheduledWait (loopStart c session now) env
        = [Event.sleep .scheduled (session.ExpiresIn * 750000000)] := by
      unfold scheduledWait
      show (if sleepDuration (expiryHorizon now session) env.nowTop > 0 then _ else _) = _
      rw [if_pos hpos2, hnow]
      show [Event.sleep .scheduled (sleepDuration (expiryHorizon now session) now)] = _
      rw [hs]
    rw [hrun, hw]
    rfl
  · rw [sleepDuration_of_nonneg _ _ hd]
    omega
  · obtain ⟨st1, evs, hrun, hw⟩ := refreshLoop_waits passes (loopStart c start t0) 0 hc rfl
      (by push_cast; omega)
    exact ⟨st1, evs, hrun, hw⟩
  · unfold specWait
    rw [tdiv_four_of_nonneg _ hd0]
    omega
  · intro r hr
    unfold specWait
    rw [tdiv_four_of_nonpos _ hr]
    omega

/-- An instance of `sleepDuration_three_quarters`: an expiry of 3600 s gives a wait of 2700 s, a
remaining time of 7 ns a wait of 3 ns, and over four passes with a moving clock
the loop sleeps 2700 s at the start, 673.5 s with 898 s left, not at all once
the expiry has passed, and 2700 s again after the refresh. -/
theorem sleepDuration_three_quarters_witness :
    exampleClient.initialized = true ∧
    0 < exampleSession.ExpiresIn * Second ∧ exampleSession.ExpiresIn * Second < 2 ^ 63 ∧
    failingPass.nowTop = 0 ∧ (([] : List IterEnv).length : Int) + 1 < 2 ^ 63 ∧
    0 ≤ timeUntil 10 3 ∧ (driftingPasses.length : Int) < 2 ^ 63 ∧ (0 : Int) ≤ 7 ∧
    exampleSession.ExpiresIn * 750000000 = 2700 * Second ∧
    sleepDuration 10 3 = 3 ∧
    specScheduledSleeps (expiryHorizon 0 exampleSession) driftingPasses
      = [2700 * Second, 673500000000, 2700 * Second] ∧
    (sleepDuration (expiryHorizon 0 exampleSession) 0 = exampleSession.ExpiresIn * 750000000 ∧
    (∃ st tail, EnableTokenAutoRefresh exampleClient exampleSession 0 (failingPass :: [])
      = .ok (st, Event.sleep .scheduled (exampleSession.ExpiresIn * 750000000) :: tail)) ∧
    (3 * timeUntil 10 3 - 12 < 4 * sleepDuration 10 3 ∧
      4 * sleepDuration 10 3 ≤ 3 * timeUntil 10 3) ∧
    (∃ st evs, EnableTokenAutoRefresh exampleClient exampleSession 0 driftingPasses
        = .ok (st, evs) ∧
      scheduledSleeps evs
        = specScheduledSleeps (expiryHorizon 0 exampleSession) driftingPasses) ∧
    (3 * 7 - 12 < 4 * specWait 7 ∧ 4 * specWait 7 ≤ 3 * 7) ∧
    (∀ r, r ≤ 0 → specWait r ≤ 0)) :=
  ⟨by decide, by decide, by decide, rfl, by decide, by decide, by decide, by decide,
    by decide, by decide, by decide,
    sleepDuration_three_quarters exampleClient exampleSession 0 failingPass [] 10 3
      exampleSession 0 driftingPasses 7
      (by decide) (by decide) (by decide) rfl (by decide) (by decide) (by decide) (by decide)⟩

/-- C5 fails as stated: started on a session whose `expiresIn` is 0, the loop
is entered and `RefreshToken` is called at once with the refresh token of the
session. -/
theorem EnableTokenAutoRefresh_expired_session_refreshes :
    expiredSession.ExpiresIn ≤ 0 ∧
    ∃ st, EnableTokenAutoRefresh exampleClient expiredSession 0 [failingPass]
      = .ok (st, [.authRefresh "ref0",
          .log "Error refreshing token, retrying with exponential backoff: network down",
          .sleep .backoff 2000000000]) :=
  ⟨by decide, _, rfl⟩

/-- C5, amended: for a session whose `expiresIn` is zero or negative (its
duration in nanoseconds within `int64`), started on a client whose handles are
in place and with a clock that does not run backwards, the loop is entered, the
wait before the refresh is skipped, and the first thing the loop does is call
`RefreshToken` with the refresh token of the session. -/
theorem EnableTokenAutoRefresh_nonpositive_expiry (c : Client) (session : Session) (now : Int)
    (env : IterEnv) (envs : List IterEnv) (hc : c.initialized = true)
    (hE : session.ExpiresIn ≤ 0) (hrange : -(2 ^ 63) ≤ session.ExpiresIn * Second)
    (hclock : now ≤ env.nowTop) (hlen : (envs.length : Int) + 1 < 2 ^ 63) :
    ∃ st tail, EnableTokenAutoRefresh c session now (env :: envs)
      = .ok (st, Event.authRefresh session.RefreshToken :: tail) := by
  have hES : session.ExpiresIn * Second ≤ 0 := by unfold Second; omega
  have hh := expiryHorizon_of_range now session hrange (by omega)
  have hu : timeUntil (expiryHorizon now session) env.nowTop ≤ 0 := by
    rw [hh]
    unfold timeUntil timeSub maxDuration minDuration
    split
    · omega
    · split <;> omega
  have hs := sleepDuration_of_nonpos _ _ hu
  obtain ⟨st, tail, hrun⟩ := EnableTokenAutoRefresh_head c session now env envs hc hlen
  refine ⟨st, tail, ?_⟩
  have hw : scheduledWait (loopStart c session now) env = [] := by
    unfold scheduledWait
    show (if sleepDuration (expiryHorizon now session) env.nowTop > 0 then _ else _) = _
    rw [if_neg (not_lt.mpr hs)]
  rw [hrun, hw]
  rfl

/-- An instance of `EnableTokenAutoRefresh_nonpositive_expiry`, at a session whose expiry is 0. -/
theorem EnableTokenAutoRefresh_nonpositive_expiry_witness :
    exampleClient.initialized = true ∧ expiredSession.ExpiresIn ≤ 0 ∧
    -(2 ^ 63) ≤ expiredSession.ExpiresIn * Second ∧ (0 : Int) ≤ succeedingPass.nowTop ∧
    (([failingPass] : List IterEnv).length : Int) + 1 < 2 ^ 63 ∧
    ∃ st tail, EnableTokenAutoRefresh exampleClient expiredSession 0
        (succeedingPass :: [failingPass])
      = .ok (st, Event.authRefresh expiredSession.RefreshToken :: tail) :=
  ⟨by decide, by decide, by decide, by decide, by decide,
    EnableTokenAutoRefresh_nonpositive_expiry exampleClient expiredSession 0 succeedingPass
      [failingPass] (by decide) (by decide) (by decide) (by decide) (by decide)⟩

/-! ## Propagation beside a reader -/

/-- C10 fails as stated: while `UpdateAuthSession` moves a signed-in client from
token `tok1` to token `tok2`, the client passes through a state whose Header Set
still says `Bearer tok1` while the data-API handle already carries `tok2`. -/
theorem UpdateAuthSession_mismatched_snapshot :
    matched (snapshot signedInClient) = true ∧
    ∃ s ∈ UpdateAuthSession.observable signedInClient laterSession,
      snapshot s = (some "Bearer tok1", some "tok2") ∧ matched (snapshot s) = false := by
  decide

/-- C10, amended: `UpdateAuthSession` takes no lock and sets the token of the
data-API handle before the `Authorization` entry of the Header Set.  Of the six
states at its statement boundaries the first two show the snapshot of the
client as it was, the third pairs the previous `Authorization` value with the
new token (a mismatch unless that value already was the new header), and the
last three, the returned client among them, show the new header with the new
token. -/
theorem UpdateAuthSession_snapshots (c : Client) (S : Session) (hc : c.initialized = true) :
    ∃ c1, UpdateAuthSession c S = .ok c1 ∧
      (UpdateAuthSession.observable c S).getLast? = some c1 ∧
      (UpdateAuthSession.observable c S).map snapshot
        = [snapshot c, snapshot c,
           ((snapshot c).1, some S.AccessToken),
           (some ("Bearer " ++ S.AccessToken), some S.AccessToken),
           (some ("Bearer " ++ S.AccessToken), some S.AccessToken),
           (some ("Bearer " ++ S.AccessToken), some S.AccessToken)] ∧
      matched (some ("Bearer " ++ S.AccessToken), some S.AccessToken) = true ∧
      (matched ((snapshot c).1, some S.AccessToken) = true ↔
        (snapshot c).1 = some ("Bearer " ++ S.AccessToken)) := by
  obtain ⟨r, a, h, hr, ha, hh, hu⟩ := UpdateAuthSession_ok c S hc
  obtain ⟨rest, Storage, Auth, Functions, ⟨url, headers, schema⟩⟩ := c
  simp only at hr ha hh
  subst hr ha hh
  refine ⟨_, hu, ?_, ?_, ?_, ?_⟩
  · rfl
  · simp [UpdateAuthSession.observable, boundaryStates, UpdateAuthSession.statements,
      UpdateAuthSession.setAuth, UpdateAuthSession.setRest, UpdateAuthSession.setHeader,
      UpdateAuthSession.setStorage, UpdateAuthSession.setFunctions, mapSet, snapshot, mapGet,
      postgrest.SetAuthToken, AList.lookup_insert]
  · simp [matched]
  · simp [matched]

/-- An instance of `UpdateAuthSession_snapshots`: a signed-in client receives a later session. -/
theorem UpdateAuthSession_snapshots_witness :
    signedInClient.initialized = true ∧
    ∃ c1, UpdateAuthSession signedInClient laterSession = .ok c1 ∧
      (UpdateAuthSession.observable signedInClient laterSession).getLast? = some c1 ∧
      (UpdateAuthSession.observable signedInClient laterSession).map snapshot
        = [snapshot signedInClient, snapshot signedInClient,
           ((snapshot signedInClient).1, some laterSession.AccessToken),
           (some ("Bearer " ++ laterSession.AccessToken), some laterSession.AccessToken),
           (some ("Bearer " ++ laterSession.AccessToken), some laterSession.AccessToken),
           (some ("Bearer " ++ laterSession.AccessToken), some laterSession.AccessToken)] ∧
      matched (some ("Bearer " ++ laterSession.AccessToken), some laterSession.AccessToken)
        = true ∧
      (matched ((snapshot signedInClient).1, some laterSession.AccessToken) = true ↔
        (snapshot signedInClient).1 = some ("Bearer " ++ laterSession.AccessToken)) :=
  ⟨by decide, UpdateAuthSession_snapshots signedInClient laterSession (by decide)⟩

end Supabase
